import Mathlib

/-!
# fetchGoodNews.js

A shallow embedding of the Netlify function `netlify/functions/fetchGoodNews.js`:
the geocode helper, the per-article location cascade, the item loop and the cached
handler, followed by the properties proved about them.

Conventions of the embedding.

* A JavaScript string is the list of its UTF-16 code units (`Str`), so `length`,
  `slice` and the regular expression (no `u` flag) work on code units as they do in
  the engine.
* `async` code is sequential: every function takes the history of events so far and
  returns its result together with the events it adds.  What the outside world
  answers (clock, feed parser, HTTP) is a function of that history, so the
  environment may answer the same question differently each time.
* Engine and library built-ins whose values the program only passes on
  (`toLowerCase`, the escaping done by `encodeURIComponent`, `parseFloat`,
  `JSON.stringify`, `toISOString`, the `>` comparison on arbitrary values) are fields
  of `Platform`; every theorem holds for all of them.
-/

namespace FetchGoodNews

/-! ## Values -/

/-- A JavaScript string, as its UTF-16 code units. -/
abbrev Str := List Nat

/-- The code units of a literal of the source (all literals of the source are ASCII). -/
def lit (s : String) : Str := s.toList.map Char.toNat

/-- A JavaScript number as far as the program observes it: it is copied and tested
for truthiness.  Negative zero is identified with zero (both are falsy). -/
inductive JSNumber where
  | nan
  | inf (negative : Bool)
  | finite (value : ℚ)
  deriving DecidableEq

/-- Truthiness of a number: `NaN` and zero are falsy. -/
def JSNumber.truthy : JSNumber → Bool
  | .nan => false
  | .inf _ => true
  | .finite v => decide (v ≠ 0)

/-- A JavaScript value as `r.json()` can produce it, plus `undefined` for a missing
property. -/
inductive JsVal where
  | undefined
  | null
  | bool (b : Bool)
  | num (n : JSNumber)
  | str (s : Str)
  | arr (elems : List JsVal)
  | obj (props : List (Str × JsVal))

/-- Truthiness of a value. -/
def JsVal.truthy : JsVal → Bool
  | .undefined => false
  | .null => false
  | .bool b => b
  | .num n => n.truthy
  | .str s => !s.isEmpty
  | .arr _ => true
  | .obj _ => true

/-- Own property of an object given as its list of properties. -/
def lookupProp (key : Str) : List (Str × JsVal) → JsVal
  | [] => .undefined
  | (k, v) :: rest => if k = key then v else lookupProp key rest

/-- Property read `v.key` for a named (non-index, non-`length`) key such as `lat`:
`none` is the `TypeError` of reading a property of `undefined` or `null`. -/
def JsVal.field (v : JsVal) (key : Str) : Option JsVal :=
  match v with
  | .undefined => none
  | .null => none
  | .obj props => some (lookupProp key props)
  | _ => some .undefined

/-- The read `v[0]` on a truthy value. -/
def JsVal.first : JsVal → JsVal
  | .arr (x :: _) => x
  | .str (c :: _) => .str [c]
  | .obj props => lookupProp (lit "0") props
  | _ => .undefined

/-- A thrown value: `message` is `err.message` when it is a string, `text` is
`String(err)`. -/
structure JsError where
  message : Option Str
  text : Str
  deriving DecidableEq

/-- The `URIError` thrown by `encodeURIComponent`. -/
def uriError : JsError :=
  { message := some (lit "URI malformed"), text := lit "URIError: URI malformed" }

/-- The expression `err.message || String(err)`. -/
def errorMessage (e : JsError) : Str :=
  match e.message with
  | some m => if m = [] then e.text else m
  | none => e.text

/-! ## String operations of the engine -/

/-- Whether `s` begins with `p`. -/
def startsWith : Str → Str → Bool
  | _, [] => true
  | [], _ :: _ => false
  | c :: s, d :: p => c = d && startsWith s p

/-- The method `s.includes(sub)`. -/
def includes : Str → Str → Bool
  | [], sub => sub.isEmpty
  | c :: s, sub => startsWith (c :: s) sub || includes s sub

/-- White space and line terminators removed by `trim`. -/
def isWhite (c : Nat) : Bool :=
  c = 9 || c = 10 || c = 11 || c = 12 || c = 13 || c = 32 || c = 160 || c = 5760 ||
  (8192 ≤ c && c ≤ 8202) || c = 8232 || c = 8233 || c = 8239 || c = 8287 ||
  c = 12288 || c = 65279

/-- The method `s.trim()`. -/
def trim (s : Str) : Str :=
  ((s.dropWhile isWhite).reverse.dropWhile isWhite).reverse

/-- The call `s.replace(/<\/?[^>]+(>|$)/g, '')`.  A match starts at a `<` that is
followed by a code unit other than `>` and runs through the next `>` or, when there
is none, to the end of the string; `inTag` says that the scan is inside a match. -/
def stripTags : Bool → Str → Str
  | _, [] => []
  | true, c :: rest => if c = 62 then stripTags false rest else stripTags true rest
  | false, c :: rest =>
    if c = 60 && (match rest with
        | d :: _ => d != 62
        | [] => false)
    then stripTags true rest
    else c :: stripTags false rest

/-- Whether the code units form well-formed UTF-16 (no lone surrogate);
`expectLow` says that the previous unit was a high surrogate. -/
def wellFormedFrom : Bool → Str → Bool
  | expectLow, [] => !expectLow
  | true, c :: rest => (56320 ≤ c && c ≤ 57343) && wellFormedFrom false rest
  | false, c :: rest =>
    if 55296 ≤ c && c ≤ 56319 then wellFormedFrom true rest
    else if 56320 ≤ c && c ≤ 57343 then false
    else wellFormedFrom false rest

/-- Whether `encodeURIComponent(s)` returns (it throws `URIError` on a lone
surrogate). -/
def wellFormed (s : Str) : Bool := wellFormedFrom false s

/-- The operator `a || b` on a possibly missing string with a string default. -/
def orElse (a : Option Str) (b : Str) : Str :=
  match a with
  | some s => if s = [] then b else s
  | none => b

/-! ## The outside world -/

/-- What the program does to the outside world, in order.  `found` is a ghost event
recording that a `geocode` call returned a location object. -/
inductive Event where
  | now
  | parseURL (url : Str)
  | geocode (q : Str)
  | fetch (url : Str)
  | found (q : Str)
  deriving DecidableEq

/-- Outcome of `await r.json()`. -/
inductive Body where
  | unparsable
  | json (v : JsVal)

/-- Outcome of `await fetch(url, ...)`: a rejected promise or a response. -/
inductive HttpOutcome where
  | failed
  | response (status : Nat) (body : Body)

/-- One entry of the parsed feed. -/
structure FeedItem where
  title : Option Str
  contentSnippet : Option Str
  content : Option Str
  description : Option Str
  link : Option Str
  pubDate : Option Str
  isoDate : Option Str

/-- The object `parser.parseURL` resolves to. -/
structure Feed where
  title : Option Str
  items : Option (List FeedItem)

/-- The object returned by `geocode` on success. -/
structure Geo where
  lat : JSNumber
  lng : JSNumber
  display_name : JsVal

/-- One element of `results`. -/
structure Item where
  title : Str
  summary : Str
  link : Str
  date : Str
  source : Str
  country : Option Str
  lat : Option JSNumber
  lng : Option JSNumber
  place_name : JsVal

/-- The object `{ items, fetched }`. -/
structure Payload where
  items : List Item
  fetched : Str

/-- The module variable `cache`. -/
structure Cache where
  ts : Int
  data : Option Payload

/-- The argument of `JSON.stringify` in a response body. -/
inductive Doc where
  | payload (p : Payload)
  | error (message : Str)

/-- The object the handler returns. -/
structure Response where
  statusCode : Nat
  headers : Option (List (Str × Str))
  body : Str

/-- Built-ins and environment.  The last three fields answer according to the
history of events so far. -/
structure Platform where
  toLowerCase : Str → Str
  uriEscape : Str → Str
  parseFloat : JsVal → JSNumber
  gtZero : JsVal → Bool
  toISOString : Int → Str
  stringify : Doc → Str
  clock : List Event → Int
  parseURL : List Event → Except JsError Feed
  fetch : List Event → Str → HttpOutcome

/-- The constant `CACHE_TTL`. -/
def CACHE_TTL : Int := 60 * 10 * 1000

/-- The initial value of `cache`. -/
def initialCache : Cache := { ts := 0, data := none }

/-- The constant `feedUrl`. -/
def feedUrl : Str := lit "https://www.goodnewsnetwork.org/feed/"

/-- The array `countries`. -/
def countries : List Str :=
  [lit "Spain", lit "United Kingdom", lit "India", lit "Kenya", lit "Brazil", lit "Japan",
   lit "United States", lit "USA", lit "Mexico", lit "Canada", lit "Australia",
   lit "Nigeria", lit "France", lit "Germany", lit "Italy", lit "Chile", lit "Peru",
   lit "Colombia"]

/-! ## geocode -/

/-- The test `arr.length > 0`. -/
def lengthPositive (P : Platform) : JsVal → Bool
  | .arr elems => decide (0 < elems.length)
  | .str s => decide (0 < s.length)
  | .obj props => P.gtZero (lookupProp (lit "length") props)
  | _ => false

/-- The statement of line 18: the returned object, or `none` when nothing is
returned or a `TypeError` is thrown (and caught). -/
def firstCandidate (P : Platform) (arr : JsVal) : Option Geo :=
  if arr.truthy && lengthPositive P arr then
    match arr.first.field (lit "lat"), arr.first.field (lit "lon"),
        arr.first.field (lit "display_name") with
    | some la, some lo, some dn =>
      some { lat := P.parseFloat la, lng := P.parseFloat lo, display_name := dn }
    | _, _, _ => none
  else none

/-- The body of the `try` block given what `fetch` did; the `catch` turns every
failure into falling through to `return null`. -/
def tryBlock (P : Platform) : HttpOutcome → Option Geo
  | .failed => none
  | .response status body =>
    if 200 ≤ status && status ≤ 299 then
      match body with
      | .unparsable => none
      | .json arr => firstCandidate P arr
    else none

/-- The request URL for an escaped query. -/
def searchUrl (escaped : Str) : Str :=
  lit "https://nominatim.openstreetmap.org/search?format=json&q=" ++ escaped ++
    lit "&limit=1&accept-language=en"

/-- The function `geocode(q)` called after the events `h`: its completion (a thrown
error or the returned value, `none` for `null`) and the events it adds. -/
def geocode (P : Platform) (q : Str) (h : List Event) :
    Except JsError (Option Geo) × List Event :=
  if q = [] then (.ok none, [.geocode q])
  else if wellFormed q then
    let url := searchUrl (P.uriEscape q)
    match tryBlock P (P.fetch (h ++ [.geocode q]) url) with
    | some g => (.ok (some g), [.geocode q, .fetch url, .found q])
    | none => (.ok none, [.geocode q, .fetch url])
  else (.error uriError, [.geocode q])

/-! ## The location cascade (lines 48 to 70) -/

/-- The variables `lat`, `lng`, `country`, `place_name`. -/
structure Loc where
  lat : Option JSNumber
  lng : Option JSNumber
  country : Option Str
  place_name : JsVal

/-- Their initial values, all `null`. -/
def Loc.init : Loc := { lat := none, lng := none, country := none, place_name := .null }

/-- The test `!lat`. -/
def notLat (lat : Option JSNumber) : Bool :=
  match lat with
  | none => true
  | some n => !n.truthy

/-- The condition of line 53 for the country name `c`. -/
def mentions (P : Platform) (title summary c : Str) : Bool :=
  includes (P.toLowerCase title) (P.toLowerCase c) ||
    includes (P.toLowerCase summary) (P.toLowerCase c)

/-- The loop of lines 52 to 58 over the remaining country names. -/
def countryLoop (P : Platform) (title summary : Str) (h : List Event) :
    List Str → Except JsError Loc × List Event
  | [] => (.ok Loc.init, [])
  | c :: rest =>
    if mentions P title summary c then
      match geocode P c h with
      | (.error e, ev) => (.error e, ev)
      | (.ok (some g), ev) =>
        (.ok { lat := some g.lat, lng := some g.lng, country := some c,
               place_name := g.display_name }, ev)
      | (.ok none, ev) => (.ok Loc.init, ev)
    else countryLoop P title summary h rest

/-- The assignment `lat = geo.lat; lng = geo.lng; place_name = geo.display_name`. -/
def Loc.assign (loc : Loc) (g : Geo) : Loc :=
  { loc with lat := some g.lat, lng := some g.lng, place_name := g.display_name }

/-- Lines 61 to 64: geocode the title when `!lat`. -/
def titleFallback (P : Platform) (title : Str) (loc : Loc) (h : List Event) :
    Except JsError Loc × List Event :=
  if notLat loc.lat then
    match geocode P title h with
    | (.error e, ev) => (.error e, ev)
    | (.ok (some g), ev) => (.ok (loc.assign g), ev)
    | (.ok none, ev) => (.ok loc, ev)
  else (.ok loc, [])

/-- Lines 67 to 70: geocode the start of the summary. -/
def summaryFallback (P : Platform) (summary : Str) (loc : Loc) (h : List Event) :
    Except JsError Loc × List Event :=
  if notLat loc.lat && !summary.isEmpty && decide (summary.length < 300) then
    match geocode P (summary.take 200) h with
    | (.error e, ev) => (.error e, ev)
    | (.ok (some g), ev) => (.ok (loc.assign g), ev)
    | (.ok none, ev) => (.ok loc, ev)
  else (.ok loc, [])

/-- Lines 48 to 64: the country loop followed by the title fallback. -/
def firstTwoStages (P : Platform) (title summary : Str) (h : List Event) :
    Except JsError Loc × List Event :=
  match countryLoop P title summary h countries with
  | (.error e, ev) => (.error e, ev)
  | (.ok loc, ev) =>
    match titleFallback P title loc (h ++ ev) with
    | (.error e, ev2) => (.error e, ev ++ ev2)
    | (.ok loc2, ev2) => (.ok loc2, ev ++ ev2)

/-- Lines 48 to 70: the whole cascade for one article. -/
def resolve (P : Platform) (title summary : Str) (h : List Event) :
    Except JsError Loc × List Event :=
  match firstTwoStages P title summary h with
  | (.error e, ev) => (.error e, ev)
  | (.ok loc, ev) =>
    match summaryFallback P summary loc (h ++ ev) with
    | (.error e, ev2) => (.error e, ev ++ ev2)
    | (.ok loc2, ev2) => (.ok loc2, ev ++ ev2)

/-! ## The item loop and the handler -/

/-- The value of `title` for a feed entry. -/
def titleOf (it : FeedItem) : Str := orElse it.title []

/-- The value of `summary` for a feed entry. -/
def summaryOf (it : FeedItem) : Str :=
  trim (stripTags false
    (match it.contentSnippet with
     | some s => if s = [] then orElse it.content (orElse it.description []) else s
     | none => orElse it.content (orElse it.description [])))

/-- The value of `date`, with the clock read it needs when both dates are missing. -/
def dateOf (P : Platform) (it : FeedItem) (h : List Event) : Str × List Event :=
  match it.pubDate with
  | some d =>
    if d = [] then
      (match it.isoDate with
       | some i => if i = [] then (P.toISOString (P.clock h), [.now]) else (i, [])
       | none => (P.toISOString (P.clock h), [.now]))
    else (d, [])
  | none =>
    match it.isoDate with
    | some i => if i = [] then (P.toISOString (P.clock h), [.now]) else (i, [])
    | none => (P.toISOString (P.clock h), [.now])

/-- The body of the loop over `items` (lines 40 to 74). -/
def processItem (P : Platform) (feedTitle : Option Str) (it : FeedItem) (h : List Event) :
    Except JsError Item × List Event :=
  let title := titleOf it
  let summary := summaryOf it
  let d := dateOf P it h
  match resolve P title summary (h ++ d.2) with
  | (.error e, ev) => (.error e, d.2 ++ ev)
  | (.ok loc, ev) =>
    (.ok { title := title, summary := summary.take 800, link := orElse it.link [],
           date := d.1, source := orElse feedTitle (lit "GoodNewsNetwork"),
           country := loc.country, lat := loc.lat, lng := loc.lng,
           place_name := loc.place_name }, d.2 ++ ev)

/-- The loop over `items` (lines 38 to 75): the array `results`. -/
def buildItems (P : Platform) (feedTitle : Option Str) (h : List Event) :
    List FeedItem → Except JsError (List Item) × List Event
  | [] => (.ok [], [])
  | it :: rest =>
    match processItem P feedTitle it h with
    | (.error e, ev) => (.error e, ev)
    | (.ok item, ev) =>
      match buildItems P feedTitle (h ++ ev) rest with
      | (.error e, ev2) => (.error e, ev ++ ev2)
      | (.ok items, ev2) => (.ok (item :: items), ev ++ ev2)

/-- A handler call: the response, the module variable `cache` afterwards and the
events of the call. -/
structure Outcome where
  response : Response
  cache : Cache
  events : List Event

/-- The response of the `catch` block. -/
def errorResponse (P : Platform) (e : JsError) : Response :=
  { statusCode := 500, headers := none, body := P.stringify (.error (errorMessage e)) }

/-- The headers of line 84. -/
def freshHeaders : List (Str × Str) :=
  [(lit "Content-Type", lit "application/json"),
   (lit "Cache-Control", lit "max-age=0, s-maxage=600")]

/-- Lines 32 to 86, entered after the events `pre` of the cache test. -/
def refresh (P : Platform) (cache : Cache) (h pre : List Event) : Outcome :=
  match P.parseURL (h ++ pre ++ [.parseURL feedUrl]) with
  | .error e =>
    { response := errorResponse P e, cache := cache, events := pre ++ [.parseURL feedUrl] }
  | .ok feed =>
    let ev0 := pre ++ [.parseURL feedUrl]
    match buildItems P feed.title (h ++ ev0) ((feed.items.getD []).take 12) with
    | (.error e, ev) =>
      { response := errorResponse P e, cache := cache, events := ev0 ++ ev }
    | (.ok results, ev) =>
      let payload : Payload :=
        { items := results, fetched := P.toISOString (P.clock (h ++ ev0 ++ ev)) }
      { response := { statusCode := 200, headers := some freshHeaders,
                      body := P.stringify (.payload payload) },
        cache := { ts := P.clock (h ++ ev0 ++ ev ++ [.now]), data := some payload },
        events := ev0 ++ ev ++ [.now, .now] }

/-- The function `exports.handler` called with the module variable `cache` after the
events `h`.  `Date.now()` of line 28 is read only when `cache.data` is set. -/
def handler (P : Platform) (cache : Cache) (h : List Event) : Outcome :=
  match cache.data with
  | some data =>
    if P.clock h - cache.ts < CACHE_TTL then
      { response := { statusCode := 200, headers := none,
                      body := P.stringify (.payload data) },
        cache := cache, events := [.now] }
    else refresh P cache h [.now]
  | none => refresh P cache h []

/-! ## Reading the events and example platforms -/

/-- The queries of the `geocode` calls among the events, in order. -/
def geocodeCalls : List Event → List Str
  | [] => []
  | .geocode q :: rest => q :: geocodeCalls rest
  | _ :: rest => geocodeCalls rest

/-- The events of the cache test of line 28: the clock is read only when
`cache.data` is set. -/
def cacheTestEvents (cache : Cache) : List Event :=
  match cache.data with
  | some _ => [.now]
  | none => []

/-- Lower-casing of the ASCII letters, the part of `toLowerCase` the examples use. -/
def asciiLower (s : Str) : Str := s.map (fun c => if 65 ≤ c ∧ c ≤ 90 then c + 32 else c)

/-- A response of the geocoding service with one candidate. -/
def candidate (lat lon : ℚ) (name : Str) : HttpOutcome :=
  .response 200 (.json (.arr [.obj [(lit "lat", .num (.finite lat)),
    (lit "lon", .num (.finite lon)), (lit "display_name", .str name)]]))

/-- An example platform: the geocoding service answers by URL, the feed parser and
the clock answer the same at every call. -/
def examplePlatform (answer : Str → HttpOutcome) (feed : Except JsError Feed)
    (time : Int) : Platform :=
  { toLowerCase := asciiLower
    uriEscape := id
    parseFloat := fun v =>
      match v with
      | .num n => n
      | _ => .nan
    gtZero := fun _ => false
    toISOString := fun _ => lit "2024-01-01T00:00:00.000Z"
    stringify := fun d =>
      match d with
      | .payload p => lit "payload " ++ p.fetched
      | .error m => lit "error " ++ m
    clock := fun _ => time
    parseURL := fun _ => feed
    fetch := fun _ url => answer url }

/-- The title of scenario B. -/
def kenyaTitle : Str := lit "Kenya opens new wildlife corridor"

/-- A geocoding service that places Kenya on the equator and finds a place for every
other query. -/
def equatorService (url : Str) : HttpOutcome :=
  if url = searchUrl (lit "Kenya") then candidate 0 38 (lit "Kenya")
  else candidate 51 7 (lit "Elsewhere")

/-- A geocoding service that is down. -/
def downService (_ : Str) : HttpOutcome := .response 503 .unparsable

/-- The feed entry of scenario C: no country name, a summary of 50 code units. -/
def bakeryEntry : FeedItem :=
  { title := some (lit "Local bakery wins award")
    contentSnippet := some (lit "The family bakery won the regional bread prize now")
    content := none
    description := none
    link := some (lit "https://www.goodnewsnetwork.org/bakery/")
    pubDate := some (lit "Mon, 01 Jan 2024 10:00:00 +0000")
    isoDate := none }

/-- The item emitted for `bakeryEntry` when no lookup finds a place. -/
def bakeryItem : Item :=
  { title := lit "Local bakery wins award"
    summary := lit "The family bakery won the regional bread prize now"
    link := lit "https://www.goodnewsnetwork.org/bakery/"
    date := lit "Mon, 01 Jan 2024 10:00:00 +0000"
    source := lit "GoodNewsNetwork"
    country := none
    lat := none
    lng := none
    place_name := .null }

/-- A feed with the single entry `bakeryEntry` and no title. -/
def bakeryFeed : Feed := { title := none, items := some [bakeryEntry] }

/-- A cache holding an empty payload stored at time 0. -/
def exampleCache : Cache :=
  { ts := 0, data := some { items := [], fetched := lit "2024-01-01T00:00:00.000Z" } }

/-- Both coordinates are `null` or both are set. -/
def Loc.paired (loc : Loc) : Prop :=
  (loc.lat = none ∧ loc.lng = none) ∨ (loc.lat ≠ none ∧ loc.lng ≠ none)

/-- A feed entry whose summary has 201 code units, the last two being the surrogate
pair of U+1F600, so that its first 200 code units end in a lone high surrogate. -/
def emojiEntry : FeedItem :=
  { title := some (lit "Local bakery wins award")
    contentSnippet := some (List.replicate 199 97 ++ [55357, 56832])
    content := none
    description := none
    link := some (lit "https://www.goodnewsnetwork.org/bakery/")
    pubDate := some (lit "Mon, 01 Jan 2024 10:00:00 +0000")
    isoDate := none }

/-- A feed with the single entry `emojiEntry`. -/
def emojiFeed : Feed := { title := none, items := some [emojiEntry] }

/-- What `JSON.stringify` prints for a field holding `null` or a number: a finite
number is printed as a number (`some`), while `NaN`, an infinity and `null` are all
printed as `null` (`none`). -/
def printedNumber : Option JSNumber → Option ℚ
  | some (.finite v) => some v
  | _ => none

/-- A geocoding service that answers every query with one candidate whose `lat` is
the text "abc" and whose `lon` is the number 7. -/
def garbledService (_ : Str) : HttpOutcome :=
  .response 200 (.json (.arr [.obj [(lit "lat", .str (lit "abc")),
    (lit "lon", .num (.finite 7)), (lit "display_name", .str (lit "X"))]]))

/-- The item emitted for `bakeryEntry` when the service is `garbledService`. -/
def garbledItem : Item :=
  { title := lit "Local bakery wins award"
    summary := lit "The family bakery won the regional bread prize now"
    link := lit "https://www.goodnewsnetwork.org/bakery/"
    date := lit "Mon, 01 Jan 2024 10:00:00 +0000"
    source := lit "GoodNewsNetwork"
    country := none
    lat := some .nan
    lng := some (.finite 7)
    place_name := .str (lit "X") }

/-! ## Lemmas on the events of `geocode` -/

theorem geocodeCalls_append (a b : List Event) :
    geocodeCalls (a ++ b) = geocodeCalls a ++ geocodeCalls b := by
  induction a with
  | nil => rfl
  | cons e a ih => cases e <;> simp [geocodeCalls, ih]

theorem geocode_calls (P : Platform) (q : Str) (h : List Event) :
    geocodeCalls (geocode P q h).2 = [q] := by
  unfold geocode
  split
  · rfl
  · split
    · dsimp only
      split <;> rfl
    · rfl

theorem geocode_found (P : Platform) (q : Str) (h : List Event) (g : Geo)
    (hg : (geocode P q h).1 = .ok (some g)) : Event.found q ∈ (geocode P q h).2 := by
  unfold geocode at hg ⊢
  by_cases hq : q = []
  · simp [hq] at hg
  · by_cases hw : wellFormed q = true
    · simp only [hq, hw, if_true, if_false] at hg ⊢
      cases htb : tryBlock P (P.fetch (h ++ [.geocode q]) (searchUrl (P.uriEscape q))) with
      | none => simp [htb] at hg
      | some g2 => simp
    · simp [hq, hw] at hg

/-- For a well-formed query, every failure of the service (rejected request,
non-success status, unparsable body, empty candidate array) makes `geocode` return
`null` without raising. -/
theorem geocode_absorbs_service_failures (P : Platform) (q : Str) (h : List Event)
    (hq : wellFormed q = true) :
    (P.fetch (h ++ [.geocode q]) (searchUrl (P.uriEscape q)) = .failed →
      (geocode P q h).1 = .ok none) ∧
    (∀ status body,
      P.fetch (h ++ [.geocode q]) (searchUrl (P.uriEscape q)) = .response status body →
      ¬ (200 ≤ status ∧ status ≤ 299) → (geocode P q h).1 = .ok none) ∧
    (∀ status,
      P.fetch (h ++ [.geocode q]) (searchUrl (P.uriEscape q)) =
        .response status .unparsable → (geocode P q h).1 = .ok none) ∧
    (∀ status,
      P.fetch (h ++ [.geocode q]) (searchUrl (P.uriEscape q)) =
        .response status (.json (.arr [])) → (geocode P q h).1 = .ok none) := by
  unfold geocode
  by_cases he : q = []
  · simp [he]
  · simp only [he, hq, if_true, if_false]
    refine ⟨?_, ?_, ?_, ?_⟩
    · intro hf
      simp [hf, tryBlock]
    · intro status body hf hs
      have hb : (decide (200 ≤ status) && decide (status ≤ 299)) = false := by
        by_cases h1 : 200 ≤ status
        · have h2 : ¬ status ≤ 299 := fun h2 => hs ⟨h1, h2⟩
          simp [h2]
        · simp [h1]
      simp [hf, tryBlock, hb]
    · intro status hf
      rw [hf]
      by_cases hs : (decide (200 ≤ status) && decide (status ≤ 299)) = true
      · simp [tryBlock, hs]
      · simp [tryBlock, hs]
    · intro status hf
      rw [hf]
      by_cases hs : (decide (200 ≤ status) && decide (status ≤ 299)) = true
      · simp [tryBlock, hs, firstCandidate, lengthPositive, JsVal.truthy]
      · simp [tryBlock, hs]

theorem countryLoop_calls (P : Platform) (title summary : Str) (h : List Event)
    (cs : List Str) :
    geocodeCalls (countryLoop P title summary h cs).2 =
      (cs.find? (mentions P title summary)).toList := by
  induction cs with
  | nil => rfl
  | cons c cs ih =>
    unfold countryLoop
    by_cases hc : mentions P title summary c = true
    · have hcalls := geocode_calls P c h
      rcases hg : geocode P c h with ⟨r, ev⟩
      rw [hg] at hcalls
      rcases r with e | (_ | g) <;> simpa [hc, List.find?] using hcalls
    · simp only [hc, if_false, Bool.false_eq_true]
      rw [ih]
      simp [List.find?, hc]

theorem countryLoop_no_match (P : Platform) (title summary : Str) (h : List Event)
    (cs : List Str) (hno : ∀ c ∈ cs, mentions P title summary c = false) :
    countryLoop P title summary h cs = (.ok Loc.init, []) := by
  induction cs with
  | nil => rfl
  | cons c cs ih =>
    unfold countryLoop
    have hc : mentions P title summary c = false := hno c (List.mem_cons_self _ _)
    simp only [hc, if_false, Bool.false_eq_true]
    exact ih (fun d hd => hno d (List.mem_cons_of_mem _ hd))

/-! ## Lemmas on the cascade -/

theorem Loc.init_paired : Loc.init.paired := Or.inl ⟨rfl, rfl⟩

theorem Loc.assign_paired (loc : Loc) (g : Geo) : (loc.assign g).paired :=
  Or.inr ⟨by simp [Loc.assign], by simp [Loc.assign]⟩

theorem countryLoop_paired (P : Platform) (title summary : Str) (h : List Event)
    (cs : List Str) (loc : Loc) (ev : List Event)
    (hr : countryLoop P title summary h cs = (.ok loc, ev)) : loc.paired := by
  induction cs with
  | nil =>
    simp only [countryLoop, Prod.mk.injEq, Except.ok.injEq] at hr
    rw [← hr.1]
    exact Loc.init_paired
  | cons c cs ih =>
    unfold countryLoop at hr
    by_cases hc : mentions P title summary c = true
    · rcases hg : geocode P c h with ⟨r, ev2⟩
      rcases r with e | (_ | g) <;>
        simp only [hc, hg, if_true, Prod.mk.injEq, Except.ok.injEq, reduceCtorEq,
          false_and] at hr
      · rw [← hr.1]
        exact Loc.init_paired
      · rw [← hr.1]
        exact Or.inr ⟨by simp, by simp⟩
    · simp only [hc, if_false, Bool.false_eq_true] at hr
      exact ih hr

theorem titleFallback_paired (P : Platform) (title : Str) (loc loc2 : Loc)
    (h ev : List Event) (hp : loc.paired)
    (hr : titleFallback P title loc h = (.ok loc2, ev)) : loc2.paired := by
  unfold titleFallback at hr
  by_cases hn : notLat loc.lat = true
  · rcases hg : geocode P title h with ⟨r, ev2⟩
    rcases r with e | (_ | g) <;>
      simp only [hn, hg, if_true, Prod.mk.injEq, Except.ok.injEq, reduceCtorEq,
        false_and] at hr
    · rw [← hr.1]
      exact hp
    · rw [← hr.1]
      exact Loc.assign_paired loc g
  · simp only [hn, if_false, Bool.false_eq_true, Prod.mk.injEq, Except.ok.injEq] at hr
    rw [← hr.1]
    exact hp

theorem summaryFallback_paired (P : Platform) (summary : Str) (loc loc2 : Loc)
    (h ev : List Event) (hp : loc.paired)
    (hr : summaryFallback P summary loc h = (.ok loc2, ev)) : loc2.paired := by
  unfold summaryFallback at hr
  by_cases hn : (notLat loc.lat && !summary.isEmpty && decide (summary.length < 300)) = true
  · rcases hg : geocode P (summary.take 200) h with ⟨r, ev2⟩
    rcases r with e | (_ | g) <;>
      simp only [hn, hg, if_true, Prod.mk.injEq, Except.ok.injEq, reduceCtorEq,
        false_and] at hr
    · rw [← hr.1]
      exact hp
    · rw [← hr.1]
      exact Loc.assign_paired loc g
  · simp only [hn, if_false, Bool.false_eq_true, Prod.mk.injEq, Except.ok.injEq] at hr
    rw [← hr.1]
    exact hp

theorem resolve_paired (P : Platform) (title summary : Str) (h ev : List Event)
    (loc : Loc) (hr : resolve P title summary h = (.ok loc, ev)) : loc.paired := by
  unfold resolve firstTwoStages at hr
  rcases h1 : countryLoop P title summary h countries with ⟨r1, ev1⟩
  rcases r1 with e1 | loc1
  · simp [h1] at hr
  · rcases h2 : titleFallback P title loc1 (h ++ ev1) with ⟨r2, ev2⟩
    rcases r2 with e2 | loc2
    · simp [h1, h2] at hr
    · rcases h3 : summaryFallback P summary loc2 (h ++ (ev1 ++ ev2)) with ⟨r3, ev3⟩
      rcases r3 with e3 | loc3
      · simp [h1, h2, h3] at hr
      · simp only [h1, h2, h3, Prod.mk.injEq, Except.ok.injEq] at hr
        rw [← hr.1]
        exact summaryFallback_paired P summary loc2 loc3 _ ev3
          (titleFallback_paired P title loc1 loc2 _ ev2
            (countryLoop_paired P title summary h countries loc1 ev1 h1) h2) h3

theorem summaryFallback_events (P : Platform) (summary : Str) (loc : Loc)
    (h : List Event) (hl : loc.lat = none) :
    geocodeCalls (summaryFallback P summary loc h).2 =
      if summary ≠ [] ∧ summary.length < 300 then [summary.take 200] else [] := by
  unfold summaryFallback
  by_cases hc : summary ≠ [] ∧ summary.length < 300
  · have hcalls := geocode_calls P (summary.take 200) h
    rcases hg : geocode P (summary.take 200) h with ⟨r, ev⟩
    rw [hg] at hcalls
    rcases r with e | (_ | g) <;>
      simpa [hl, notLat, hc.1, hc.2, List.isEmpty_iff] using hcalls
  · rw [if_neg hc]
    have hb : (notLat loc.lat && !summary.isEmpty && decide (summary.length < 300)) = false := by
      by_cases he : summary = []
      · simp [he]
      · have hlen : ¬ summary.length < 300 := fun hlt => hc ⟨he, hlt⟩
        simp [hlen]
    simp only [hb, Bool.false_eq_true, if_false]
    rfl

theorem resolve_events (P : Platform) (title summary : Str) (h ev : List Event)
    (loc : Loc) (h12 : firstTwoStages P title summary h = (.ok loc, ev)) :
    (resolve P title summary h).2 = ev ++ (summaryFallback P summary loc (h ++ ev)).2 := by
  unfold resolve
  rw [h12]
  rcases h3 : summaryFallback P summary loc (h ++ ev) with ⟨r, ev3⟩
  rcases r with e | loc3 <;> simp only [h3]

theorem countryLoop_unfound (P : Platform) (title summary : Str) (h : List Event)
    (cs : List Str) (loc : Loc) (ev : List Event)
    (hr : countryLoop P title summary h cs = (.ok loc, ev))
    (hno : ∀ q, Event.found q ∉ ev) : loc = Loc.init := by
  induction cs with
  | nil =>
    simp only [countryLoop, Prod.mk.injEq, Except.ok.injEq] at hr
    exact hr.1.symm
  | cons c cs ih =>
    unfold countryLoop at hr
    by_cases hc : mentions P title summary c = true
    · have hf := geocode_found P c h
      rcases hg : geocode P c h with ⟨r, ev2⟩
      rw [hg] at hf
      rcases r with e | (_ | g) <;>
        simp only [hc, hg, if_true, Prod.mk.injEq, Except.ok.injEq, reduceCtorEq,
          false_and] at hr
      · exact hr.1.symm
      · exact absurd (hr.2 ▸ hf g rfl) (hno c)
    · simp only [hc, if_false, Bool.false_eq_true] at hr
      exact ih hr

theorem titleFallback_unfound (P : Platform) (title : Str) (loc loc2 : Loc)
    (h ev : List Event) (hr : titleFallback P title loc h = (.ok loc2, ev))
    (hno : ∀ q, Event.found q ∉ ev) : loc2 = loc := by
  unfold titleFallback at hr
  by_cases hn : notLat loc.lat = true
  · have hf := geocode_found P title h
    rcases hg : geocode P title h with ⟨r, ev2⟩
    rw [hg] at hf
    rcases r with e | (_ | g) <;>
      simp only [hn, hg, if_true, Prod.mk.injEq, Except.ok.injEq, reduceCtorEq,
        false_and] at hr
    · exact hr.1.symm
    · exact absurd (hr.2 ▸ hf g rfl) (hno title)
  · simp only [hn, if_false, Bool.false_eq_true, Prod.mk.injEq, Except.ok.injEq] at hr
    exact hr.1.symm

theorem summaryFallback_unfound (P : Platform) (summary : Str) (loc loc2 : Loc)
    (h ev : List Event) (hr : summaryFallback P summary loc h = (.ok loc2, ev))
    (hno : ∀ q, Event.found q ∉ ev) : loc2 = loc := by
  unfold summaryFallback at hr
  by_cases hn : (notLat loc.lat && !summary.isEmpty && decide (summary.length < 300)) = true
  · have hf := geocode_found P (summary.take 200) h
    rcases hg : geocode P (summary.take 200) h with ⟨r, ev2⟩
    rw [hg] at hf
    rcases r with e | (_ | g) <;>
      simp only [hn, hg, if_true, Prod.mk.injEq, Except.ok.injEq, reduceCtorEq,
        false_and] at hr
    · exact hr.1.symm
    · exact absurd (hr.2 ▸ hf g rfl) (hno (summary.take 200))
  · simp only [hn, if_false, Bool.false_eq_true, Prod.mk.injEq, Except.ok.injEq] at hr
    exact hr.1.symm

theorem resolve_unfound (P : Platform) (title summary : Str) (h ev : List Event)
    (loc : Loc) (hr : resolve P title summary h = (.ok loc, ev))
    (hno : ∀ q, Event.found q ∉ ev) : loc = Loc.init := by
  unfold resolve firstTwoStages at hr
  rcases h1 : countryLoop P title summary h countries with ⟨r1, ev1⟩
  rcases r1 with e1 | loc1
  · simp [h1] at hr
  · rcases h2 : titleFallback P title loc1 (h ++ ev1) with ⟨r2, ev2⟩
    rcases r2 with e2 | loc2
    · simp [h1, h2] at hr
    · rcases h3 : summaryFallback P summary loc2 (h ++ (ev1 ++ ev2)) with ⟨r3, ev3⟩
      rcases r3 with e3 | loc3
      · simp [h1, h2, h3] at hr
      · simp only [h1, h2, h3, Prod.mk.injEq, Except.ok.injEq] at hr
        obtain ⟨hl, hev⟩ := hr
        subst hev
        have n1 : ∀ q, Event.found q ∉ ev1 := fun q hq => hno q (by simp [hq])
        have n2 : ∀ q, Event.found q ∉ ev2 := fun q hq => hno q (by simp [hq])
        have n3 : ∀ q, Event.found q ∉ ev3 := fun q hq => hno q (by simp [hq])
        rw [← hl, summaryFallback_unfound P summary loc2 loc3 _ ev3 h3 n3,
          titleFallback_unfound P title loc1 loc2 _ ev2 h2 n2,
          countryLoop_unfound P title summary h countries loc1 ev1 h1 n1]

/-- When the country loop ends with a truthy `lat`, neither fallback runs: the
cascade returns that location and adds no further event. -/
theorem resolve_keeps_truthy_country_hit (P : Platform) (title summary : Str)
    (h ev : List Event) (loc : Loc)
    (h1 : countryLoop P title summary h countries = (.ok loc, ev))
    (ht : notLat loc.lat = false) :
    resolve P title summary h = (.ok loc, ev) := by
  unfold resolve firstTwoStages
  rw [h1]
  simp [titleFallback, summaryFallback, ht]

/-! ## Lemmas on the item loop and the handler -/

theorem CACHE_TTL_eq : CACHE_TTL = 600000 := by
  unfold CACHE_TTL
  norm_num

theorem orElse_nil (a : Option Str) : orElse a [] = a.getD [] := by
  cases a with
  | none => rfl
  | some v =>
    by_cases hv : v = []
    · simp [orElse, hv]
    · simp [orElse, hv]

theorem processItem_fields (P : Platform) (feedTitle : Option Str) (it : FeedItem)
    (h ev : List Event) (item : Item)
    (hr : processItem P feedTitle it h = (.ok item, ev)) :
    item.title = it.title.getD [] ∧ item.link = it.link.getD [] := by
  unfold processItem at hr
  rcases h1 : resolve P (titleOf it) (summaryOf it) (h ++ (dateOf P it h).2) with ⟨r, ev1⟩
  rcases r with e | loc
  · simp [h1] at hr
  · simp only [h1, Prod.mk.injEq, Except.ok.injEq] at hr
    rw [← hr.1]
    exact ⟨orElse_nil it.title, orElse_nil it.link⟩

theorem buildItems_positions (P : Platform) (feedTitle : Option Str)
    (entries : List FeedItem) :
    ∀ (h ev : List Event) (items : List Item),
      buildItems P feedTitle h entries = (.ok items, ev) →
      items.length = entries.length ∧
      ∀ (i : Nat) (entry : FeedItem), entries[i]? = some entry →
        ∃ item : Item, items[i]? = some item ∧ item.title = entry.title.getD [] ∧
          item.link = entry.link.getD [] := by
  induction entries with
  | nil =>
    intro h ev items hr
    simp only [buildItems, Prod.mk.injEq, Except.ok.injEq] at hr
    rw [← hr.1]
    simp
  | cons it rest ih =>
    intro h ev items hr
    unfold buildItems at hr
    rcases h1 : processItem P feedTitle it h with ⟨r1, ev1⟩
    rcases r1 with e1 | item1
    · simp [h1] at hr
    · rcases h2 : buildItems P feedTitle (h ++ ev1) rest with ⟨r2, ev2⟩
      rcases r2 with e2 | items2
      · simp [h1, h2] at hr
      · simp only [h1, h2, Prod.mk.injEq, Except.ok.injEq] at hr
        obtain ⟨hi, -⟩ := hr
        subst hi
        obtain ⟨hlen, hpos⟩ := ih (h ++ ev1) ev2 items2 h2
        refine ⟨by simp [hlen], ?_⟩
        intro i entry hentry
        cases i with
        | zero =>
          simp only [List.getElem?_cons_zero, Option.some.injEq] at hentry
          subst hentry
          exact ⟨item1, by simp, processItem_fields P feedTitle it h ev1 item1 h1⟩
        | succ j =>
          simp only [List.getElem?_cons_succ] at hentry
          obtain ⟨item, hitem, hfields⟩ := hpos j entry hentry
          exact ⟨item, by simpa using hitem, hfields⟩

theorem geocode_completes (P : Platform) (q : Str) (h : List Event)
    (hq : wellFormed q = true) : ∃ r ev, geocode P q h = (.ok r, ev) := by
  unfold geocode
  by_cases he : q = []
  · simp only [he, if_true]
    exact ⟨none, _, rfl⟩
  · simp only [he, hq, if_true, if_false]
    cases tryBlock P (P.fetch (h ++ [.geocode q]) (searchUrl (P.uriEscape q))) with
    | none => exact ⟨none, _, rfl⟩
    | some g => exact ⟨some g, _, rfl⟩

theorem countryLoop_completes (P : Platform) (title summary : Str) (h : List Event)
    (cs : List Str) (hcs : ∀ c ∈ cs, wellFormed c = true) :
    ∃ loc ev, countryLoop P title summary h cs = (.ok loc, ev) := by
  induction cs with
  | nil => exact ⟨_, _, rfl⟩
  | cons c cs ih =>
    unfold countryLoop
    by_cases hc : mentions P title summary c = true
    · obtain ⟨r, ev, hg⟩ := geocode_completes P c h (hcs c (List.mem_cons_self _ _))
      simp only [hc, hg, if_true]
      cases r with
      | none => exact ⟨_, _, rfl⟩
      | some g => exact ⟨_, _, rfl⟩
    · simp only [hc, if_false, Bool.false_eq_true]
      exact ih (fun d hd => hcs d (List.mem_cons_of_mem _ hd))

theorem countries_wellFormed : ∀ c ∈ countries, wellFormed c = true := by
  decide

theorem titleFallback_completes (P : Platform) (title : Str) (loc : Loc)
    (h : List Event) (hq : wellFormed title = true) :
    ∃ loc2 ev, titleFallback P title loc h = (.ok loc2, ev) := by
  unfold titleFallback
  by_cases hn : notLat loc.lat = true
  · obtain ⟨r, ev, hg⟩ := geocode_completes P title h hq
    simp only [hn, hg, if_true]
    cases r with
    | none => exact ⟨_, _, rfl⟩
    | some g => exact ⟨_, _, rfl⟩
  · simp only [hn, if_false, Bool.false_eq_true]
    exact ⟨_, _, rfl⟩

theorem summaryFallback_completes (P : Platform) (summary : Str) (loc : Loc)
    (h : List Event) (hq : wellFormed (summary.take 200) = true) :
    ∃ loc2 ev, summaryFallback P summary loc h = (.ok loc2, ev) := by
  unfold summaryFallback
  by_cases hn : (notLat loc.lat && !summary.isEmpty && decide (summary.length < 300)) = true
  · obtain ⟨r, ev, hg⟩ := geocode_completes P (summary.take 200) h hq
    simp only [hn, hg, if_true]
    cases r with
    | none => exact ⟨_, _, rfl⟩
    | some g => exact ⟨_, _, rfl⟩
  · simp only [hn, if_false, Bool.false_eq_true]
    exact ⟨_, _, rfl⟩

theorem resolve_completes (P : Platform) (title summary : Str) (h : List Event)
    (ht : wellFormed title = true) (hs : wellFormed (summary.take 200) = true) :
    ∃ loc ev, resolve P title summary h = (.ok loc, ev) := by
  unfold resolve firstTwoStages
  obtain ⟨loc1, ev1, h1⟩ := countryLoop_completes P title summary h countries
    countries_wellFormed
  obtain ⟨loc2, ev2, h2⟩ := titleFallback_completes P title loc1 (h ++ ev1) ht
  obtain ⟨loc3, ev3, h3⟩ := summaryFallback_completes P summary loc2 (h ++ (ev1 ++ ev2)) hs
  simp only [h1, h2, h3]
  exact ⟨_, _, rfl⟩

theorem processItem_completes (P : Platform) (feedTitle : Option Str) (it : FeedItem)
    (h : List Event) (ht : wellFormed (titleOf it) = true)
    (hs : wellFormed ((summaryOf it).take 200) = true) :
    ∃ item ev, processItem P feedTitle it h = (.ok item, ev) := by
  unfold processItem
  obtain ⟨loc, ev, hr⟩ := resolve_completes P (titleOf it) (summaryOf it)
    (h ++ (dateOf P it h).2) ht hs
  simp only [hr]
  exact ⟨_, _, rfl⟩

theorem buildItems_completes (P : Platform) (feedTitle : Option Str)
    (entries : List FeedItem)
    (hwf : ∀ it ∈ entries, wellFormed (titleOf it) = true ∧
      wellFormed ((summaryOf it).take 200) = true) :
    ∀ h : List Event, ∃ items ev, buildItems P feedTitle h entries = (.ok items, ev) := by
  induction entries with
  | nil => exact fun _ => ⟨_, _, rfl⟩
  | cons it rest ih =>
    intro h
    unfold buildItems
    obtain ⟨item, ev1, h1⟩ := processItem_completes P feedTitle it h
      (hwf it (List.mem_cons_self _ _)).1 (hwf it (List.mem_cons_self _ _)).2
    obtain ⟨items, ev2, h2⟩ := ih (fun d hd => hwf d (List.mem_cons_of_mem _ hd)) (h ++ ev1)
    simp only [h1, h2]
    exact ⟨_, _, rfl⟩

theorem handler_hit (P : Platform) (cache : Cache) (h : List Event) (data : Payload)
    (hd : cache.data = some data) (hf : P.clock h - cache.ts < 600000) :
    handler P cache h =
      { response := { statusCode := 200, headers := none,
                      body := P.stringify (.payload data) },
        cache := cache, events := [.now] } := by
  unfold handler
  rw [← CACHE_TTL_eq] at hf
  simp only [hd, hf, if_true]

theorem handler_miss (P : Platform) (cache : Cache) (h : List Event)
    (hmiss : ∀ data, cache.data = some data → 600000 ≤ P.clock h - cache.ts) :
    handler P cache h = refresh P cache h (cacheTestEvents cache) := by
  unfold handler cacheTestEvents
  cases hd : cache.data with
  | none => rfl
  | some data =>
    have hge := hmiss data hd
    rw [← CACHE_TTL_eq] at hge
    simp only [not_lt.mpr hge, if_false]

theorem refresh_feed_error (P : Platform) (cache : Cache) (h pre : List Event)
    (e : JsError) (hp : P.parseURL (h ++ pre ++ [.parseURL feedUrl]) = .error e) :
    refresh P cache h pre =
      { response := errorResponse P e, cache := cache,
        events := pre ++ [.parseURL feedUrl] } := by
  unfold refresh
  rw [hp]

theorem refresh_item_error (P : Platform) (cache : Cache) (h pre ev : List Event)
    (feed : Feed) (e : JsError)
    (hp : P.parseURL (h ++ pre ++ [.parseURL feedUrl]) = .ok feed)
    (hb : buildItems P feed.title (h ++ (pre ++ [.parseURL feedUrl]))
      ((feed.items.getD []).take 12) = (.error e, ev)) :
    refresh P cache h pre =
      { response := errorResponse P e, cache := cache,
        events := pre ++ [.parseURL feedUrl] ++ ev } := by
  unfold refresh
  rw [hp]
  simp only [hb]

theorem refresh_success (P : Platform) (cache : Cache) (h pre ev : List Event)
    (feed : Feed) (results : List Item)
    (hp : P.parseURL (h ++ pre ++ [.parseURL feedUrl]) = .ok feed)
    (hb : buildItems P feed.title (h ++ (pre ++ [.parseURL feedUrl]))
      ((feed.items.getD []).take 12) = (.ok results, ev)) :
    refresh P cache h pre =
      { response :=
          { statusCode := 200, headers := some freshHeaders,
            body := P.stringify (.payload
              { items := results,
                fetched := P.toISOString
                  (P.clock (h ++ (pre ++ [.parseURL feedUrl]) ++ ev)) }) },
        cache :=
          { ts := P.clock (h ++ (pre ++ [.parseURL feedUrl]) ++ ev ++ [.now]),
            data := some
              { items := results,
                fetched := P.toISOString
                  (P.clock (h ++ (pre ++ [.parseURL feedUrl]) ++ ev)) } },
        events := pre ++ [.parseURL feedUrl] ++ ev ++ [.now, .now] } := by
  unfold refresh
  rw [hp]
  simp only [hb]

theorem refresh_fetches (P : Platform) (cache : Cache) (h pre : List Event) :
    Event.parseURL feedUrl ∈ (refresh P cache h pre).events := by
  rcases hp : P.parseURL (h ++ pre ++ [.parseURL feedUrl]) with e | feed
  · rw [refresh_feed_error P cache h pre e hp]
    simp
  · rcases hb : buildItems P feed.title (h ++ (pre ++ [.parseURL feedUrl]))
      ((feed.items.getD []).take 12) with ⟨r, ev⟩
    rcases r with e | results
    · rw [refresh_item_error P cache h pre ev feed e hp hb]
      simp
    · rw [refresh_success P cache h pre ev feed results hp hb]
      simp

theorem refresh_ok (P : Platform) (cache : Cache) (h pre : List Event)
    (h200 : (refresh P cache h pre).response.statusCode = 200) :
    ∃ payload, (refresh P cache h pre).cache.data = some payload ∧
      (refresh P cache h pre).response.body = P.stringify (.payload payload) := by
  rcases hp : P.parseURL (h ++ pre ++ [.parseURL feedUrl]) with e | feed
  · rw [refresh_feed_error P cache h pre e hp] at h200
    simp [errorResponse] at h200
  · rcases hb : buildItems P feed.title (h ++ (pre ++ [.parseURL feedUrl]))
      ((feed.items.getD []).take 12) with ⟨r, ev⟩
    rcases r with e | results
    · rw [refresh_item_error P cache h pre ev feed e hp hb] at h200
      simp [errorResponse] at h200
    · rw [refresh_success P cache h pre ev feed results hp hb]
      exact ⟨_, rfl, rfl⟩

theorem handler_ok (P : Platform) (cache : Cache) (h : List Event)
    (h200 : (handler P cache h).response.statusCode = 200) :
    ∃ payload, (handler P cache h).cache.data = some payload ∧
      (handler P cache h).response.body = P.stringify (.payload payload) := by
  by_cases hf : ∃ data, cache.data = some data ∧ P.clock h - cache.ts < 600000
  · obtain ⟨data, hd, hlt⟩ := hf
    rw [handler_hit P cache h data hd hlt]
    exact ⟨data, hd, rfl⟩
  · have hmiss : ∀ data, cache.data = some data → 600000 ≤ P.clock h - cache.ts :=
      fun data hd => not_lt.mp (fun hlt => hf ⟨data, hd, hlt⟩)
    rw [handler_miss P cache h hmiss] at h200 ⊢
    exact refresh_ok P cache h _ h200

/-! ## The claims -/

/-- C2: for an article whose title or summary mentions a listed country name, the
country loop calls `geocode` exactly once, with the first mentioned name in list
order, whatever that call returns; for an article that mentions none it adds no
event at all. -/
theorem countryLoop_calls_first_match (P : Platform) (title summary : Str)
    (h : List Event) :
    (∀ c, countries.find? (mentions P title summary) = some c →
      geocodeCalls (countryLoop P title summary h countries).2 = [c]) ∧
    ((∀ c ∈ countries, mentions P title summary c = false) →
      (countryLoop P title summary h countries).2 = []) := by
  constructor
  · intro c hc
    rw [countryLoop_calls, hc]
    rfl
  · intro hno
    rw [countryLoop_no_match P title summary h countries hno]

theorem countryLoop_calls_first_match_witness :
    geocodeCalls (countryLoop (examplePlatform downService (.error uriError) 0)
        kenyaTitle [] [] countries).2 = [lit "Kenya"] ∧
    (countryLoop (examplePlatform downService (.error uriError) 0)
        (lit "Local bakery wins award") [] [] countries).2 = [] :=
  ⟨(countryLoop_calls_first_match _ kenyaTitle [] []).1 (lit "Kenya") (by decide),
   (countryLoop_calls_first_match _ (lit "Local bakery wins award") [] []).2 (by decide)⟩

/-- C1 (failing input): the country lookup for "Kenya" yields latitude 0; the test
`!lat` then holds, the title is geocoded as well and its answer replaces the
coordinates and the place name while `country` stays "Kenya". -/
theorem resolve_zero_latitude_falls_through :
    (geocode (examplePlatform equatorService (.error uriError) 0) (lit "Kenya") []).1 =
      .ok (some { lat := .finite 0, lng := .finite 38, display_name := .str (lit "Kenya") }) ∧
    (resolve (examplePlatform equatorService (.error uriError) 0) kenyaTitle [] []).1 =
      .ok { lat := some (.finite 51), lng := some (.finite 7), country := some (lit "Kenya"),
            place_name := .str (lit "Elsewhere") } ∧
    geocodeCalls (resolve (examplePlatform equatorService (.error uriError) 0)
      kenyaTitle [] []).2 = [lit "Kenya", kenyaTitle] := by
  refine ⟨?_, ?_, ?_⟩ <;> rfl

set_option maxRecDepth 20000

/-- C5 (failing input): for the query consisting of a lone high surrogate,
`encodeURIComponent` throws outside the `try` block and `geocode` raises the
`URIError` to its caller, on every platform and before any request is made.  The
handler reaches such a query by `summary.slice(0,200)` on the entry `emojiEntry` and
answers 500 for the whole request. -/
theorem geocode_lone_surrogate_throws :
    (∀ (P : Platform) (h : List Event),
      geocode P [55357] h = (.error uriError, [.geocode [55357]])) ∧
    (summaryOf emojiEntry).take 200 = List.replicate 199 97 ++ [55357] ∧
    (handler (examplePlatform downService (.ok emojiFeed) 0) initialCache
        []).response.statusCode = 500 ∧
    (handler (examplePlatform downService (.ok emojiFeed) 0) initialCache
        []).response.body =
      (examplePlatform downService (.ok emojiFeed) 0).stringify
        (.error (lit "URI malformed")) := by
  refine ⟨fun _ _ => rfl, ?_, ?_, ?_⟩ <;> rfl

/-- In the object pushed to `results`, `lat` and `lng` are both `null` or both
numbers, whatever the geocoding service answered; the number may be `NaN` or an
infinity, which `JSON.stringify` prints as `null`. -/
theorem processItem_lat_lng_paired (P : Platform) (feedTitle : Option Str)
    (it : FeedItem) (h ev : List Event) (item : Item)
    (hr : processItem P feedTitle it h = (.ok item, ev)) :
    (item.lat = none ∧ item.lng = none) ∨ (item.lat ≠ none ∧ item.lng ≠ none) := by
  unfold processItem at hr
  rcases h1 : resolve P (titleOf it) (summaryOf it) (h ++ (dateOf P it h).2) with ⟨r, ev1⟩
  rcases r with e | loc
  · simp [h1] at hr
  · simp only [h1, Prod.mk.injEq, Except.ok.injEq] at hr
    rw [← hr.1]
    exact resolve_paired P _ _ _ ev1 loc h1

/-- C3 (failing input): the service answers with a candidate whose `lat` is "abc"
and whose `lon` is 7.  The item the handler stores and serialises has `lat` equal to
`NaN` and `lng` equal to 7, so the emitted JSON has `lat` printed as `null` next to
`lng` printed as 7: exactly one of the two is set. -/
theorem emitted_item_lat_null_lng_set :
    (processItem (examplePlatform garbledService (.ok bakeryFeed) 0) none bakeryEntry
        []).1 = .ok garbledItem ∧
    (handler (examplePlatform garbledService (.ok bakeryFeed) 0) initialCache
        []).response.statusCode = 200 ∧
    (handler (examplePlatform garbledService (.ok bakeryFeed) 0) initialCache
        []).cache.data =
      some { items := [garbledItem], fetched := lit "2024-01-01T00:00:00.000Z" } ∧
    garbledItem.lat = some .nan ∧ garbledItem.lng = some (.finite 7) ∧
    printedNumber garbledItem.lat = none ∧ printedNumber garbledItem.lng = some 7 := by
  refine ⟨?_, ?_, ?_, ?_, ?_, ?_, ?_⟩ <;> rfl

/-- C6: when the country loop and the title fallback complete with `lat` still
`null`, the rest of the cascade calls `geocode` once, with the first 200 code units
of the summary, if the summary is non-empty and shorter than 300 code units, and not
at all otherwise; and an emitted item for which no `geocode` call returned a location
has `lat`, `lng`, `country` and `place_name` all `null`. -/
theorem summaryFallback_calls_and_nulls (P : Platform) :
    (∀ (title summary : Str) (h ev : List Event) (loc : Loc),
      firstTwoStages P title summary h = (.ok loc, ev) → loc.lat = none →
      ∃ ev3, (resolve P title summary h).2 = ev ++ ev3 ∧
        geocodeCalls ev3 =
          if summary ≠ [] ∧ summary.length < 300 then [summary.take 200] else []) ∧
    (∀ (feedTitle : Option Str) (it : FeedItem) (h ev : List Event) (item : Item),
      processItem P feedTitle it h = (.ok item, ev) → (∀ q, Event.found q ∉ ev) →
      item.lat = none ∧ item.lng = none ∧ item.country = none ∧
        item.place_name = .null) := by
  constructor
  · intro title summary h ev loc h12 hl
    exact ⟨_, resolve_events P title summary h ev loc h12,
      summaryFallback_events P summary loc (h ++ ev) hl⟩
  · intro feedTitle it h ev item hr hno
    unfold processItem at hr
    rcases h1 : resolve P (titleOf it) (summaryOf it) (h ++ (dateOf P it h).2) with ⟨r, ev1⟩
    rcases r with e | loc
    · simp [h1] at hr
    · simp only [h1, Prod.mk.injEq, Except.ok.injEq] at hr
      obtain ⟨hi, hev⟩ := hr
      subst hev
      have hinit := resolve_unfound P _ _ _ ev1 loc h1 (fun q hq => hno q (by simp [hq]))
      subst hinit
      rw [← hi]
      exact ⟨rfl, rfl, rfl, rfl⟩

theorem summaryFallback_calls_and_nulls_witness :
    (∃ ev3, (resolve (examplePlatform downService (.error uriError) 0)
          (titleOf bakeryEntry) (summaryOf bakeryEntry) []).2 =
        [.geocode (titleOf bakeryEntry),
          .fetch (searchUrl (titleOf bakeryEntry))] ++ ev3 ∧
      geocodeCalls ev3 = [summaryOf bakeryEntry]) ∧
    (bakeryItem.lat = none ∧ bakeryItem.lng = none ∧ bakeryItem.country = none ∧
      bakeryItem.place_name = .null) :=
  ⟨(summaryFallback_calls_and_nulls (examplePlatform downService (.error uriError) 0)).1
      (titleOf bakeryEntry) (summaryOf bakeryEntry) [] _ Loc.init rfl rfl,
   (summaryFallback_calls_and_nulls (examplePlatform downService (.error uriError) 0)).2
      none bakeryEntry []
      [.geocode (titleOf bakeryEntry), .fetch (searchUrl (titleOf bakeryEntry)),
       .geocode (summaryOf bakeryEntry), .fetch (searchUrl (summaryOf bakeryEntry))]
      bakeryItem rfl (fun q hq => by simp at hq)⟩

/-- C4: the handler answers without fetching the feed exactly when a payload is
stored and the time read at line 28 minus `cache.ts` is below 600000 ms; in that
case it answers 200 with the stored payload and leaves the cache as it is, and from
600000 ms on (or with nothing stored) the feed is fetched. -/
theorem handler_serves_cache_iff_fresh (P : Platform) (cache : Cache) (h : List Event) :
    ((∃ data, cache.data = some data ∧ P.clock h - cache.ts < 600000) ↔
      Event.parseURL feedUrl ∉ (handler P cache h).events) ∧
    (∀ data, cache.data = some data → P.clock h - cache.ts < 600000 →
      (handler P cache h).response.statusCode = 200 ∧
      (handler P cache h).response.body = P.stringify (.payload data) ∧
      (handler P cache h).events = [.now] ∧
      (handler P cache h).cache = cache) ∧
    (∀ data, cache.data = some data → 600000 ≤ P.clock h - cache.ts →
      Event.parseURL feedUrl ∈ (handler P cache h).events) := by
  refine ⟨⟨?_, ?_⟩, ?_, ?_⟩
  · rintro ⟨data, hd, hlt⟩
    rw [handler_hit P cache h data hd hlt]
    simp
  · intro hno
    by_contra hf
    have hmiss : ∀ data, cache.data = some data → 600000 ≤ P.clock h - cache.ts :=
      fun data hd => not_lt.mp (fun hlt => hf ⟨data, hd, hlt⟩)
    rw [handler_miss P cache h hmiss] at hno
    exact hno (refresh_fetches P cache h _)
  · intro data hd hlt
    rw [handler_hit P cache h data hd hlt]
    exact ⟨rfl, rfl, rfl, rfl⟩
  · intro data hd hge
    have hmiss : ∀ d, cache.data = some d → 600000 ≤ P.clock h - cache.ts :=
      fun _ _ => hge
    rw [handler_miss P cache h hmiss]
    exact refresh_fetches P cache h _

theorem handler_serves_cache_iff_fresh_witness :
    (handler (examplePlatform downService (.ok bakeryFeed) 599999) exampleCache
        []).events = [.now] ∧
    Event.parseURL feedUrl ∈
      (handler (examplePlatform downService (.ok bakeryFeed) 600000) exampleCache
        []).events :=
  ⟨((handler_serves_cache_iff_fresh (examplePlatform downService (.ok bakeryFeed) 599999)
      exampleCache []).2.1 _ rfl (by decide)).2.2.1,
   (handler_serves_cache_iff_fresh (examplePlatform downService (.ok bakeryFeed) 600000)
      exampleCache []).2.2 _ rfl (by decide)⟩

/-- On a cache miss on which the feed is fetched successfully, (1) the handler
answers 200 as soon as the titles and the first 200 code units of the summaries of
the first 12 entries are well-formed UTF-16, and (2) whenever it answers 200, the
payload it returns and stores has exactly min(n, 12) items, the i-th carrying the
title and the link of the i-th feed entry (the empty text when the entry has
none). -/
theorem refresh_items_in_feed_order (P : Platform) (cache : Cache)
    (h : List Event) (feed : Feed)
    (hmiss : ∀ data, cache.data = some data → 600000 ≤ P.clock h - cache.ts)
    (hfeed : P.parseURL (h ++ cacheTestEvents cache ++ [.parseURL feedUrl]) = .ok feed) :
    ((∀ it ∈ (feed.items.getD []).take 12,
        wellFormed (titleOf it) = true ∧ wellFormed ((summaryOf it).take 200) = true) →
      (handler P cache h).response.statusCode = 200) ∧
    ((handler P cache h).response.statusCode = 200 →
      ∃ payload : Payload,
        (handler P cache h).cache.data = some payload ∧
        (handler P cache h).response.body = P.stringify (.payload payload) ∧
        payload.items.length = min (feed.items.getD []).length 12 ∧
        ∀ i : Nat, i < min (feed.items.getD []).length 12 →
          ∃ (item : Item) (entry : FeedItem),
            payload.items[i]? = some item ∧ (feed.items.getD [])[i]? = some entry ∧
            item.title = entry.title.getD [] ∧ item.link = entry.link.getD []) := by
  rw [handler_miss P cache h hmiss]
  rcases hb : buildItems P feed.title (h ++ (cacheTestEvents cache ++ [.parseURL feedUrl]))
    ((feed.items.getD []).take 12) with ⟨r, ev⟩
  rcases r with e | results
  · rw [refresh_item_error P cache h _ ev feed e hfeed hb]
    constructor
    · intro hwf
      obtain ⟨items, ev2, hok⟩ := buildItems_completes P feed.title _ hwf
        (h ++ (cacheTestEvents cache ++ [.parseURL feedUrl]))
      rw [hb] at hok
      simp at hok
    · intro h200
      simp [errorResponse] at h200
  · rw [refresh_success P cache h _ ev feed results hfeed hb]
    refine ⟨fun _ => rfl, fun _ => ⟨_, rfl, rfl, ?_, ?_⟩⟩
    · obtain ⟨hlen, -⟩ := buildItems_positions P feed.title _ _ ev results hb
      simp only [hlen, List.length_take]
      exact Nat.min_comm _ _
    · intro i hi
      obtain ⟨-, hpos⟩ := buildItems_positions P feed.title _ _ ev results hb
      have hi1 : i < (feed.items.getD []).length := lt_of_lt_of_le hi (Nat.min_le_left _ _)
      have hi2 : i < 12 := lt_of_lt_of_le hi (Nat.min_le_right _ _)
      have hentry : ((feed.items.getD []).take 12)[i]? = some ((feed.items.getD [])[i]) := by
        rw [List.getElem?_take_of_lt hi2, List.getElem?_eq_getElem hi1]
      obtain ⟨item, hitem, hfields⟩ := hpos i _ hentry
      exact ⟨item, _, hitem, List.getElem?_eq_getElem hi1, hfields⟩

theorem refresh_items_in_feed_order_example :
    (handler (examplePlatform downService (.ok bakeryFeed) 0) initialCache
        []).response.statusCode = 200 ∧
    ∃ payload : Payload,
      (handler (examplePlatform downService (.ok bakeryFeed) 0) initialCache
        []).cache.data = some payload ∧
      (handler (examplePlatform downService (.ok bakeryFeed) 0) initialCache
        []).response.body =
        (examplePlatform downService (.ok bakeryFeed) 0).stringify (.payload payload) ∧
      payload.items.length = min (bakeryFeed.items.getD []).length 12 ∧
      ∀ i : Nat, i < min (bakeryFeed.items.getD []).length 12 →
        ∃ (item : Item) (entry : FeedItem),
          payload.items[i]? = some item ∧ (bakeryFeed.items.getD [])[i]? = some entry ∧
          item.title = entry.title.getD [] ∧ item.link = entry.link.getD [] :=
  ⟨(refresh_items_in_feed_order (examplePlatform downService (.ok bakeryFeed) 0)
      initialCache [] bakeryFeed (fun _ hd => nomatch hd) rfl).1 (by decide),
   (refresh_items_in_feed_order (examplePlatform downService (.ok bakeryFeed) 0)
      initialCache [] bakeryFeed (fun _ hd => nomatch hd) rfl).2 rfl⟩

/-- C7 (failing input): on a cache miss the feed with the single entry `emojiEntry`
is fetched successfully, yet the handler answers 500 and stores nothing, so no
payload with min(1, 12) = 1 item is produced.  The `URIError` of
`encodeURIComponent` on the cut surrogate pair ends the request. -/
theorem handler_emoji_feed_yields_no_payload :
    (examplePlatform downService (.ok emojiFeed) 0).parseURL [.parseURL feedUrl] =
      .ok emojiFeed ∧
    min (emojiFeed.items.getD []).length 12 = 1 ∧
    (handler (examplePlatform downService (.ok emojiFeed) 0) initialCache
        []).response.statusCode = 500 ∧
    (handler (examplePlatform downService (.ok emojiFeed) 0) initialCache
        []).cache.data = none ∧
    (handler (examplePlatform downService (.ok emojiFeed) 0) initialCache
        []).events =
      [.parseURL feedUrl,
       .geocode (lit "Local bakery wins award"),
       .fetch (searchUrl (lit "Local bakery wins award")),
       .geocode (List.replicate 199 97 ++ [55357])] := by
  refine ⟨?_, ?_, ?_, ?_, ?_⟩ <;> rfl

/-- C8: when the feed fetch fails on a cache miss, the handler answers 500 with the
error object holding the message `err.message || String(err)`, and the module
variable `cache` is what it was before the call. -/
theorem handler_feed_failure_keeps_cache (P : Platform) (cache : Cache)
    (h : List Event) (e : JsError)
    (hmiss : ∀ data, cache.data = some data → 600000 ≤ P.clock h - cache.ts)
    (hfail : P.parseURL (h ++ cacheTestEvents cache ++ [.parseURL feedUrl]) = .error e) :
    (handler P cache h).response.statusCode = 500 ∧
    (handler P cache h).response.body = P.stringify (.error (errorMessage e)) ∧
    (handler P cache h).cache = cache := by
  rw [handler_miss P cache h hmiss, refresh_feed_error P cache h _ e hfail]
  exact ⟨rfl, rfl, rfl⟩

theorem handler_feed_failure_keeps_cache_witness :
    (handler (examplePlatform downService (.error uriError) 600000) exampleCache
        []).response.statusCode = 500 ∧
    (handler (examplePlatform downService (.error uriError) 600000) exampleCache
        []).response.body =
      (examplePlatform downService (.error uriError) 600000).stringify
        (.error (errorMessage uriError)) ∧
    (handler (examplePlatform downService (.error uriError) 600000) exampleCache
        []).cache = exampleCache :=
  handler_feed_failure_keeps_cache (examplePlatform downService (.error uriError) 600000)
    exampleCache [] uriError (fun _ _ => by decide) rfl

/-- C9 (failing input): with a payload stored 1000 ms ago the handler answers 200
from the cache and the response has no headers at all, while the freshly computed
response of the other path carries the `Cache-Control` header of line 84. -/
theorem cached_response_has_no_headers :
    (handler (examplePlatform downService (.ok bakeryFeed) 1000) exampleCache
        []).response.statusCode = 200 ∧
    (handler (examplePlatform downService (.ok bakeryFeed) 1000) exampleCache
        []).response.headers = none ∧
    (handler (examplePlatform downService (.ok bakeryFeed) 1000) initialCache
        []).response.headers = some freshHeaders := by
  refine ⟨?_, ?_, ?_⟩ <;> rfl

/-- C10: if a handler call answers 200 and a second call reads a time less than
600000 ms after the `ts` of the cache the first call left, the second call's body
equals the first call's body, its only event is the clock read (no feed fetch, no
`geocode` call) and it leaves the cache unchanged. -/
theorem handler_idempotent_within_ttl (P : Platform) (cache : Cache)
    (h h2 : List Event)
    (h200 : (handler P cache h).response.statusCode = 200)
    (hfresh : P.clock h2 - (handler P cache h).cache.ts < 600000) :
    (handler P (handler P cache h).cache h2).response.body =
      (handler P cache h).response.body ∧
    (handler P (handler P cache h).cache h2).events = [.now] ∧
    (handler P (handler P cache h).cache h2).cache = (handler P cache h).cache := by
  obtain ⟨payload, hdata, hbody⟩ := handler_ok P cache h h200
  rw [handler_hit P (handler P cache h).cache h2 payload hdata hfresh, hbody]
  exact ⟨rfl, rfl, rfl⟩

theorem handler_idempotent_within_ttl_witness :
    (handler (examplePlatform downService (.ok bakeryFeed) 0)
        (handler (examplePlatform downService (.ok bakeryFeed) 0) initialCache []).cache
        [.parseURL feedUrl]).response.body =
      (handler (examplePlatform downService (.ok bakeryFeed) 0) initialCache
        []).response.body ∧
    (handler (examplePlatform downService (.ok bakeryFeed) 0)
        (handler (examplePlatform downService (.ok bakeryFeed) 0) initialCache []).cache
        [.parseURL feedUrl]).events = [.now] ∧
    (handler (examplePlatform downService (.ok bakeryFeed) 0)
        (handler (examplePlatform downService (.ok bakeryFeed) 0) initialCache []).cache
        [.parseURL feedUrl]).cache =
      (handler (examplePlatform downService (.ok bakeryFeed) 0) initialCache []).cache :=
  handler_idempotent_within_ttl (examplePlatform downService (.ok bakeryFeed) 0)
    initialCache [] [.parseURL feedUrl] rfl (by decide)

end FetchGoodNews
